import Mathlib

/-!
# Verification of the gogchat core: pagination aggregator, HTTP envelope
# client and table output formatter

Shallow embedding of the Go sources of `cipher-shad0w/gogchat`:

* the paginated list aggregation loops (`newEventsListCmd` in the events
  command file and `membersListAll` in `internal/cmd/members.go`),
* the HTTP envelope client error handling (`parseAPIErrorFromBody`,
  `ErrorReason`, `do`, `buildURL`, `AddQueryParam*` in the `api` package),
* the output formatter (`Truncate`, `Table.Render` in the `output` package).

Go strings are modelled as `List Char` where character-level operations
matter (the output formatter) and as Lean `String` elsewhere; all the
inputs the claims touch are ASCII, where Go's byte length and the
character count agree.
-/

deriving instance DecidableEq for Except

namespace Gogchat

/-! ## Go errors

Go errors are opaque values; `fmt.Errorf("...: %w", err)` wraps an error
in a new one carrying a context message while keeping the original
recoverable via `errors.Unwrap`.  We model the error universe as an
inductive closed under that wrapping. -/

/-- A Go `error` value: either an underlying failure (transport or API
error, identified by its message) or a `fmt.Errorf("<context>: %w", inner)`
wrapper. -/
inductive GoErr where
  | base (msg : String)
  | wrapf (context : String) (inner : GoErr)
  deriving DecidableEq, Repr

/-- Embeds Go `errors.Unwrap`: the wrapped inner error, if any. -/
def GoErr.unwrap : GoErr → Option GoErr
  | .base _ => none
  | .wrapf _ inner => some inner

/-! ## Pagination aggregator

`newEventsListCmd` (events file, lines 55–80) runs:

```go
for {
    raw, err := svc.List(ctx, parent, filter, pageSize, pageToken)
    if err != nil { return fmt.Errorf("listing events: %w", err) }
    ... unmarshal raw into resp{SpaceEvents, NextPage} ...
    allEvents = append(allEvents, resp.SpaceEvents...)
    if !all || resp.NextPage == "" { pageToken = resp.NextPage; break }
    pageToken = resp.NextPage
}
```

`membersListAll` (`internal/cmd/members.go`, lines 92–112) is the same
loop specialised to `all = true`, initial token `""` and wrap message
`"listing members"`.  The list operation `svc.List` with the fixed
filter/pageSize arguments is abstracted as a function from the page
token to a page or an error; the JSON unmarshalling of a successful
response into `{items, nextPageToken}` is abstracted into the `Page`
result.  The loop is given fuel because Go's `for` is unbounded; every
theorem below holds for every sufficiently large fuel, and the ghost
`trace` records the token passed to each issued call. -/

/-- One page of a paginated list response: the decoded items and the
`nextPageToken` continuation token. -/
structure Page (ι : Type) where
  items : List ι
  nextPageToken : String
  deriving DecidableEq, Repr

/-- The aggregation loop shared by `newEventsListCmd` and
`membersListAll`.  `wrapMsg` is the `fmt.Errorf` context (`"listing
events"` / `"listing members"`), `all` the fetch-all flag, `svc` the
abstracted list call, `fuel` the step bound (a modelling artifact:
`none` means the bound was hit), `pageToken` the token for the next
call, `acc` the items accumulated so far and `trace` the tokens of the
calls issued so far.  On success the loop returns the accumulated items
and the final `pageToken` together with the call trace. -/
def listLoop {ι : Type} (wrapMsg : String) (all : Bool)
    (svc : String → Except GoErr (Page ι)) :
    Nat → String → List ι → List String →
    Option (Except GoErr (List ι × String) × List String)
  | 0, _, _, _ => none
  | fuel + 1, pageToken, acc, trace =>
    let trace := trace ++ [pageToken]
    match svc pageToken with
    | .error e => some (.error (.wrapf wrapMsg e), trace)
    | .ok page =>
      let acc := acc ++ page.items
      if !all || page.nextPageToken = "" then
        some (.ok (acc, page.nextPageToken), trace)
      else
        listLoop wrapMsg all svc fuel page.nextPageToken acc trace

/-- The `events list` aggregation (`newEventsListCmd`): starts from the
supplied `--page-token` value. -/
def eventsList {ι : Type} (all : Bool) (svc : String → Except GoErr (Page ι))
    (fuel : Nat) (pageToken : String) :
    Option (Except GoErr (List ι × String) × List String) :=
  listLoop ("listing events") all svc fuel pageToken [] []

/-- The `members list --all` aggregation (`membersListAll`): fetch-all
mode starting from the empty token. -/
def membersListAll {ι : Type} (svc : String → Except GoErr (Page ι))
    (fuel : Nat) :
    Option (Except GoErr (List ι × String) × List String) :=
  listLoop ("listing members") true svc fuel ("") [] []

/-- The claim's page-sequence hypothesis, as an inductive chain:
`PageChain svc t [P1, …, Pn]` says the list call at token `t` returns
`P1`, each `Pi` with `i < n` carries a non-empty continuation token that
is the token of the call returning `Pi+1`, and `Pn` carries the empty
token. -/
inductive PageChain {ι : Type} (svc : String → Except GoErr (Page ι)) :
    String → List (Page ι) → Prop
  | last {t : String} {p : Page ι} :
      svc t = .ok p → p.nextPageToken = "" → PageChain svc t [p]
  | cons {t : String} {p : Page ι} {ps : List (Page ι)} :
      svc t = .ok p → p.nextPageToken ≠ "" →
      PageChain svc p.nextPageToken ps → PageChain svc t (p :: ps)

/-- The tokens the aggregator passes to the `n` calls fetching the pages
of a chain starting at `t0`: `t0`, then each page's continuation token
except the last. -/
def tokenChain {ι : Type} (t0 : String) (pages : List (Page ι)) : List String :=
  t0 :: (pages.dropLast.map Page.nextPageToken)

/-- The claim's failure hypothesis: `FailChain svc t k e` says calls
issued from token `t` succeed `k` times with non-empty continuation
tokens threaded in order, and call `k + 1` fails with `e`. -/
inductive FailChain {ι : Type} (svc : String → Except GoErr (Page ι)) :
    String → Nat → GoErr → Prop
  | here {t : String} {e : GoErr} :
      svc t = .error e → FailChain svc t 0 e
  | step {t : String} {p : Page ι} {k : Nat} {e : GoErr} :
      svc t = .ok p → p.nextPageToken ≠ "" →
      FailChain svc p.nextPageToken k e → FailChain svc t (k + 1) e

/-- Fetch-all mode: under a `PageChain` hypothesis the loop returns the
concatenation of the pages' items (appended after `acc`), an empty final
token, and a trace extending the given one by exactly the chain's
tokens.  Generalised over `acc`/`trace`/fuel for the induction. -/
theorem listLoop_chain {ι : Type} (wrapMsg : String)
    (svc : String → Except GoErr (Page ι)) (t0 : String)
    (pages : List (Page ι)) (h : PageChain svc t0 pages) :
    ∀ (fuel : Nat), pages.length ≤ fuel → ∀ (acc : List ι) (trace : List String),
      listLoop wrapMsg true svc fuel t0 acc trace =
        some (.ok (acc ++ (pages.map Page.items).flatten, ""),
              trace ++ tokenChain t0 pages) := by
  induction h with
  | @last t p hsvc hempty =>
    intro fuel hfuel acc trace
    match fuel, hfuel with
    | fuel + 1, _ =>
      simp [listLoop, hsvc, hempty, tokenChain]
  | @cons t p ps hsvc hne hchain ih =>
    intro fuel hfuel acc trace
    match fuel, hfuel with
    | fuel + 1, hfuel =>
      have hlen : ps.length ≤ fuel := by
        simp only [List.length_cons] at hfuel
        omega
      have hps : ps ≠ [] := by cases hchain <;> simp
      rw [listLoop]
      simp only [hsvc]
      rw [if_neg (by simp [hne])]
      rw [ih fuel hlen]
      have hdrop : (p :: ps).dropLast = p :: ps.dropLast :=
        List.dropLast_cons_of_ne_nil hps
      simp [tokenChain, hdrop, List.append_assoc]

/-- A page chain is never empty. -/
theorem PageChain.ne_nil {ι : Type} {svc : String → Except GoErr (Page ι)}
    {t : String} {pages : List (Page ι)} (h : PageChain svc t pages) :
    pages ≠ [] := by
  cases h <;> simp

/-- A chain of `n` pages uses exactly `n` call tokens. -/
theorem tokenChain_length {ι : Type} (t0 : String) (pages : List (Page ι))
    (h : pages ≠ []) : (tokenChain t0 pages).length = pages.length := by
  simp only [tokenChain, List.length_cons, List.length_map,
    List.length_dropLast]
  have : 0 < pages.length := List.length_pos.mpr h
  omega

/-- Under a `FailChain`: calls 1..k succeed with non-empty threaded
tokens and call k+1 fails with `e`; the loop returns the wrapped
failure, no items, and a trace of exactly k+1 issued calls. -/
theorem listLoop_failChain {ι : Type} (wrapMsg : String)
    (svc : String → Except GoErr (Page ι)) (t0 : String) (k : Nat)
    (e : GoErr) (h : FailChain svc t0 k e) :
    ∀ (fuel : Nat), k + 1 ≤ fuel → ∀ (acc : List ι) (trace : List String),
      ∃ tr, listLoop wrapMsg true svc fuel t0 acc trace =
          some (.error (.wrapf wrapMsg e), trace ++ tr) ∧
        tr.length = k + 1 := by
  induction h with
  | @here t e hsvc =>
    intro fuel hfuel acc trace
    match fuel, hfuel with
    | fuel + 1, _ =>
      exact ⟨[t], by simp [listLoop, hsvc], rfl⟩
  | @step t p k e hsvc hne _ ih =>
    intro fuel hfuel acc trace
    match fuel, hfuel with
    | fuel + 1, hfuel =>
      have hlen : k + 1 ≤ fuel := by omega
      obtain ⟨tr, htr, hl⟩ :=
        ih fuel hlen (acc ++ p.items) (trace ++ [t])
      refine ⟨t :: tr, ?_, by simp [hl]⟩
      rw [listLoop]
      simp only [hsvc]
      rw [if_neg (by simp [hne])]
      rw [htr]
      simp

/-! ### Concrete instances used by the witnesses -/

/-- First page of the two-page example run. -/
def pageA : Page Nat := ⟨[1, 2], "tok2"⟩

/-- Second (last) page of the two-page example run. -/
def pageB : Page Nat := ⟨[3], ""⟩

/-- The two-page example run. -/
def pages2 : List (Page Nat) := [pageA, pageB]

/-- Example list service: first page at the empty token, second at
`"tok2"`, anything else fails. -/
def svc2 : String → Except GoErr (Page Nat) := fun t =>
  if t = "" then .ok pageA
  else if t = "tok2" then .ok pageB
  else .error (.base ("unknown token"))

/-- `svc2` serves `pages2` as a chain from the empty token. -/
theorem svc2_chain : PageChain svc2 ("") pages2 :=
  .cons rfl (by decide) (.last rfl rfl)

/-- Example list service whose very first call fails. -/
def svcFail : String → Except GoErr (Page Nat) :=
  fun _ => .error (.base ("boom"))

/-- C1: In fetch-all mode, given pages P1..Pn where each page before the
last carries a non-empty continuation token and the last an empty one,
both aggregation loops (`events list --all`, starting from the supplied
token, and `members list --all`, starting from the empty token) issue
exactly n list calls, thread each returned token into the next call
(the call trace is exactly `tokenChain`), and return the concatenation
of the pages' items in call order with an empty final token. -/
theorem fetchAll_concatenates_in_order {ι : Type}
    (svc : String → Except GoErr (Page ι)) (t0 : String)
    (pages : List (Page ι)) (fuel : Nat) (hfuel : pages.length ≤ fuel) :
    (PageChain svc t0 pages →
      eventsList true svc fuel t0 =
          some (.ok ((pages.map Page.items).flatten, ""), tokenChain t0 pages) ∧
        (tokenChain t0 pages).length = pages.length) ∧
    (PageChain svc ("") pages →
      membersListAll svc fuel =
          some (.ok ((pages.map Page.items).flatten, ""), tokenChain ("") pages) ∧
        (tokenChain ("") pages).length = pages.length) := by
  constructor
  · intro h
    refine ⟨?_, tokenChain_length t0 pages h.ne_nil⟩
    simpa [eventsList] using
      listLoop_chain ("listing events") svc t0 pages h fuel hfuel [] []
  · intro h
    refine ⟨?_, tokenChain_length ("") pages h.ne_nil⟩
    simpa [membersListAll] using
      listLoop_chain ("listing members") svc ("") pages h fuel hfuel [] []

/-- C1 witness: the two-page run through both loops yields `[1, 2, 3]`,
an empty final token, and the two-call trace `["", "tok2"]`. -/
theorem fetchAll_concatenates_in_order_witness :
    eventsList true svc2 2 ("") =
        some (.ok ([1, 2, 3], ""), ["", "tok2"]) ∧
      membersListAll svc2 2 = some (.ok ([1, 2, 3], ""), ["", "tok2"]) := by
  have h := fetchAll_concatenates_in_order svc2 ("") pages2 2 (by decide)
  exact ⟨by simpa [pages2, pageA, pageB, tokenChain] using (h.1 svc2_chain).1,
    by simpa [pages2, pageA, pageB, tokenChain] using (h.2 svc2_chain).1⟩

/-- C5: In single-page mode (fetch-all flag false) the events loop
issues exactly one list call with the supplied page token — whether or
not the returned continuation token is empty — and returns that page's
items and continuation token verbatim. -/
theorem singlePage_one_call {ι : Type}
    (svc : String → Except GoErr (Page ι)) (t0 : String) (p : Page ι)
    (fuel : Nat) (h : svc t0 = .ok p) (hfuel : 1 ≤ fuel) :
    eventsList false svc fuel t0 =
      some (.ok (p.items, p.nextPageToken), [t0]) := by
  match fuel, hfuel with
  | fuel + 1, _ => simp [eventsList, listLoop, h]

/-- C5 witness: one call at the empty token returns page A's items and
its non-empty continuation token verbatim, with a one-call trace. -/
theorem singlePage_one_call_witness :
    eventsList false svc2 1 ("") = some (.ok ([1, 2], "tok2"), [""]) :=
  singlePage_one_call svc2 ("") pageA 1 rfl (by decide)

/-- C4 (amended): if calls 1..k−1 succeed and call k fails with `e`,
both fetch-all loops abort at once with exactly k issued calls, return
no items, and return the failure of call k wrapped once in the
command's context message (`fmt.Errorf("listing events: %w", err)` /
`"listing members: %w"`) — the original failure is recoverable by
unwrapping, but the error value itself is not returned unchanged. -/
theorem fetchAll_failure_aborts {ι : Type}
    (svc : String → Except GoErr (Page ι)) (t0 : String) (k : Nat)
    (e : GoErr) (fuel : Nat) (hfuel : k + 1 ≤ fuel) :
    (FailChain svc t0 k e →
      ∃ tr, eventsList true svc fuel t0 =
            some (.error (.wrapf ("listing events") e), tr) ∧
          tr.length = k + 1 ∧
        (GoErr.wrapf ("listing events") e).unwrap = some e) ∧
    (FailChain svc ("") k e →
      ∃ tr, membersListAll svc fuel =
            some (.error (.wrapf ("listing members") e), tr) ∧
          tr.length = k + 1 ∧
        (GoErr.wrapf ("listing members") e).unwrap = some e) := by
  constructor
  · intro h
    obtain ⟨tr, htr, hl⟩ :=
      listLoop_failChain ("listing events") svc t0 k e h fuel hfuel [] []
    exact ⟨tr, by simpa [eventsList] using htr, hl, rfl⟩
  · intro h
    obtain ⟨tr, htr, hl⟩ :=
      listLoop_failChain ("listing members") svc ("") k e h fuel hfuel [] []
    exact ⟨tr, by simpa [membersListAll] using htr, hl, rfl⟩

/-- C4 witness: a first-call failure aborts both loops after one call
with the wrapped failure. -/
theorem fetchAll_failure_aborts_witness :
    (∃ tr, eventsList true svcFail 3 ("") =
          some (.error (.wrapf ("listing events") (.base ("boom"))), tr) ∧
        tr.length = 1 ∧
      (GoErr.wrapf ("listing events") (.base ("boom"))).unwrap =
        some (.base ("boom"))) ∧
    (∃ tr, membersListAll svcFail 3 =
          some (.error (.wrapf ("listing members") (.base ("boom"))), tr) ∧
        tr.length = 1 ∧
      (GoErr.wrapf ("listing members") (.base ("boom"))).unwrap =
        some (.base ("boom"))) := by
  have h := fetchAll_failure_aborts svcFail ("") 0 (.base ("boom")) 3 (by decide)
  exact ⟨h.1 (.here rfl), h.2 (.here rfl)⟩

/-- C4 counterexample to the claim as stated: the aggregator does not
return the failure of the failing call unchanged — `membersListAll`
wraps it as `fmt.Errorf("listing members: %w", err)`, a different error
value. -/
theorem fetchAll_failure_not_unchanged :
    membersListAll svcFail 3 =
        some (.error (.wrapf ("listing members") (.base ("boom"))), [""]) ∧
      GoErr.wrapf ("listing members") (.base ("boom")) ≠ GoErr.base ("boom") :=
  ⟨rfl, by decide⟩

/-! ## HTTP envelope client (`api` package, client file)

`parseAPIErrorFromBody(statusCode, body)` unmarshals the body into the
Google error envelope; the `json.Unmarshal` call is external (Go
standard library) and is abstracted as an `Option ErrEnvelope` argument:
`some env` when the body parses as the envelope (with Go zero values for
absent fields), `none` when unmarshalling fails.  The raw body bytes are
kept as a `String` argument. -/

/-- A help link in an error detail (`ErrorLink`). -/
structure ErrorLink where
  description : String
  url : String
  deriving DecidableEq, Repr

/-- One entry of the envelope's `details` array (`ErrorDetail`);
`typeTag` is the JSON `@type` field. -/
structure ErrorDetail where
  typeTag : String
  reason : String
  domain : String
  metadata : List (String × String)
  links : List ErrorLink
  deriving DecidableEq, Repr

/-- The parsed `{"error": {...}}` envelope (the anonymous struct inside
`parseAPIErrorFromBody`). -/
structure ErrEnvelope where
  code : Int
  message : String
  status : String
  details : List ErrorDetail
  deriving DecidableEq, Repr

/-- `APIError`: a structured non-2xx response. -/
structure APIError where
  code : Int
  message : String
  status : String
  details : List ErrorDetail
  rawBody : String
  deriving DecidableEq, Repr

/-- `(*APIError).ErrorReason`: the reason of the first detail with a
non-empty reason, or the empty string. -/
def ErrorReason (e : APIError) : String :=
  match e.details.find? (fun d => d.reason ≠ "") with
  | some d => d.reason
  | none => ""

/-- Go `unicode.IsSpace` restricted to the ASCII range (all bodies the
claims touch are ASCII). -/
def isGoSpace (c : Char) : Bool :=
  c = ' ' || c = '\t' || c = '\n' || c = '\x0b' || c = '\x0c' || c = '\x0d'

/-- Go `strings.TrimSpace`: strip leading and trailing whitespace. -/
def trimSpace (s : String) : String :=
  ⟨((s.toList.dropWhile isGoSpace).reverse.dropWhile isGoSpace).reverse⟩

/-- Go `net/http.StatusText`: the standard textual reason phrase for an
HTTP status code, or the empty string (transcribed from the Go standard
library). -/
def statusText (code : Int) : String :=
  match code with
  | 100 => "Continue"
  | 101 => "Switching Protocols"
  | 102 => "Processing"
  | 103 => "Early Hints"
  | 200 => "OK"
  | 201 => "Created"
  | 202 => "Accepted"
  | 203 => "Non-Authoritative Information"
  | 204 => "No Content"
  | 205 => "Reset Content"
  | 206 => "Partial Content"
  | 207 => "Multi-Status"
  | 208 => "Already Reported"
  | 226 => "IM Used"
  | 300 => "Multiple Choices"
  | 301 => "Moved Permanently"
  | 302 => "Found"
  | 303 => "See Other"
  | 304 => "Not Modified"
  | 305 => "Use Proxy"
  | 307 => "Temporary Redirect"
  | 308 => "Permanent Redirect"
  | 400 => "Bad Request"
  | 401 => "Unauthorized"
  | 402 => "Payment Required"
  | 403 => "Forbidden"
  | 404 => "Not Found"
  | 405 => "Method Not Allowed"
  | 406 => "Not Acceptable"
  | 407 => "Proxy Authentication Required"
  | 408 => "Request Timeout"
  | 409 => "Conflict"
  | 410 => "Gone"
  | 411 => "Length Required"
  | 412 => "Precondition Failed"
  | 413 => "Request Entity Too Large"
  | 414 => "Request URI Too Long"
  | 415 => "Unsupported Media Type"
  | 416 => "Requested Range Not Satisfiable"
  | 417 => "Expectation Failed"
  | 418 => "I\x27m a teapot"
  | 421 => "Misdirected Request"
  | 422 => "Unprocessable Entity"
  | 423 => "Locked"
  | 424 => "Failed Dependency"
  | 425 => "Too Early"
  | 426 => "Upgrade Required"
  | 428 => "Precondition Required"
  | 429 => "Too Many Requests"
  | 431 => "Request Header Fields Too Large"
  | 451 => "Unavailable For Legal Reasons"
  | 500 => "Internal Server Error"
  | 501 => "Not Implemented"
  | 502 => "Bad Gateway"
  | 503 => "Service Unavailable"
  | 504 => "Gateway Timeout"
  | 505 => "HTTP Version Not Supported"
  | 506 => "Variant Also Negotiates"
  | 507 => "Insufficient Storage"
  | 508 => "Loop Detected"
  | 510 => "Not Extended"
  | 511 => "Network Authentication Required"
  | _ => ""

/-- The generic branch of `parseAPIErrorFromBody`: for a status ≥ 400 a
synthesized `APIError` from the transport status code, the reason
phrase and the trimmed body; otherwise `nil`. -/
def genericAPIError (statusCode : Int) (body : String) : Option APIError :=
  if statusCode ≥ 400 then
    some { code := statusCode, message := trimSpace body,
           status := statusText statusCode, details := [], rawBody := body }
  else none

/-- `parseAPIErrorFromBody(statusCode, body)`: if the body unmarshals as
the envelope and its embedded code is non-zero, an `APIError` from the
envelope's fields (keeping the raw body); otherwise the generic
branch. -/
def parseAPIErrorFromBody (statusCode : Int) (parsed : Option ErrEnvelope)
    (body : String) : Option APIError :=
  match parsed with
  | some env =>
    if env.code ≠ 0 then
      some { code := env.code, message := env.message, status := env.status,
             details := env.details, rawBody := body }
    else genericAPIError statusCode body
  | none => genericAPIError statusCode body

/-- The error kinds `(*Client).do` can return once a response arrived:
either a structured `APIError` or the plain
`fmt.Errorf("unexpected status %d: %s", ...)` fallback. -/
inductive DoError where
  | api (e : APIError)
  | unexpectedStatus (code : Int) (body : String)
  deriving DecidableEq, Repr

/-- `(*Client).do` from the point a response `(statusCode, respStatus,
body)` was received and read (request construction, transport and read
failures are earlier, distinct error paths).  Returns the primary
result (raw body on 2xx, `DoError` otherwise) paired with the
diagnostic lines written to the log stream, in write order. -/
def clientDo (verbose : Bool) (method url : String) (statusCode : Int)
    (respStatus : String) (parsed : Option ErrEnvelope) (body : String) :
    Except DoError String × List String :=
  let logs : List String :=
    if verbose then [">> " ++ method ++ " " ++ url] else []
  let logs := logs ++
    (if verbose then ["<< " ++ toString statusCode ++ " " ++ respStatus] else [])
  if statusCode < 200 ∨ statusCode ≥ 300 then
    let logs := logs ++
      (if verbose then ["<< Response body:\n" ++ body] else [])
    match parseAPIErrorFromBody statusCode parsed body with
    | some e => (.error (.api e), logs)
    | none => (.error (.unexpectedStatus statusCode body), logs)
  else (.ok body, logs)

/-- The parsed envelope of the 403 example body (the `json.Unmarshal`
result for
`\x7b"error":\x7b"code":403,"message":"Forbidden","status":"PERMISSION_DENIED","details":[\x7b"@type":"type.googleapis.com/google.rpc.ErrorInfo","reason":"ACCESS_DENIED"\x7d]\x7d\x7d`). -/
def env403 : ErrEnvelope :=
  { code := 403, message := "Forbidden", status := "PERMISSION_DENIED",
    details := [{ typeTag := "type.googleapis.com/google.rpc.ErrorInfo",
                  reason := "ACCESS_DENIED", domain := "", metadata := [],
                  links := [] }] }

/-- The raw 403 example body. -/
def body403 : String :=
  "\x7b\"error\":\x7b\"code\":403,\"message\":\"Forbidden\",\"status\":\"PERMISSION_DENIED\",\"details\":[\x7b\"@type\":\"type.googleapis.com/google.rpc.ErrorInfo\",\"reason\":\"ACCESS_DENIED\"\x7d]\x7d\x7d"

/-- C2: for every non-2xx response whose body parses as the envelope
with a non-zero embedded code, the client returns the `APIError` built
from the envelope's code, message, status and details (keeping the raw
body); for the 403 example the error has code 403, status
`PERMISSION_DENIED` and `ErrorReason` recovers `ACCESS_DENIED`. -/
theorem envelope_error_surfaced :
    (∀ (verbose : Bool) (method url : String) (statusCode : Int)
        (respStatus : String) (env : ErrEnvelope) (body : String),
      env.code ≠ 0 → statusCode < 200 ∨ statusCode ≥ 300 →
      (clientDo verbose method url statusCode respStatus (some env) body).1 =
        .error (.api { code := env.code, message := env.message,
                       status := env.status, details := env.details,
                       rawBody := body })) ∧
    ((clientDo false ("GET") "u" 403 ("403 Forbidden") (some env403) body403).1 =
        .error (.api { code := 403, message := "Forbidden",
                       status := "PERMISSION_DENIED", details := env403.details,
                       rawBody := body403 }) ∧
      ErrorReason { code := 403, message := "Forbidden",
                    status := "PERMISSION_DENIED", details := env403.details,
                    rawBody := body403 } = "ACCESS_DENIED") := by
  have hgen : ∀ (verbose : Bool) (method url : String) (statusCode : Int)
      (respStatus : String) (env : ErrEnvelope) (body : String),
      env.code ≠ 0 → statusCode < 200 ∨ statusCode ≥ 300 →
      (clientDo verbose method url statusCode respStatus (some env) body).1 =
        .error (.api { code := env.code, message := env.message,
                       status := env.status, details := env.details,
                       rawBody := body }) := by
    intro verbose method url statusCode respStatus env body hcode hrange
    simp [clientDo, if_pos hrange, parseAPIErrorFromBody, hcode]
  refine ⟨hgen, ?_, ?_⟩
  · exact hgen false ("GET") "u" 403 ("403 Forbidden") env403 body403
      (by decide) (by norm_num)
  · decide

/-- C2 witness: the general branch applied at the concrete 403
response. -/
theorem envelope_error_surfaced_witness :
    (clientDo true ("GET") "https://chat.googleapis.com/v1/spaces" 403
        ("403 Forbidden") (some env403) body403).1 =
      .error (.api { code := 403, message := "Forbidden",
                     status := "PERMISSION_DENIED", details := env403.details,
                     rawBody := body403 }) :=
  envelope_error_surfaced.1 true ("GET") "https://chat.googleapis.com/v1/spaces"
    403 ("403 Forbidden") env403 body403 (by decide) (by norm_num)

/-- C3 counterexample to the claim as stated: a 302 response with the
unparseable body `"moved"` is outside [200,300), yet the client does not
synthesize a generic `APIError` — `parseAPIErrorFromBody` only does so
for statuses ≥ 400, and `do` falls back to the plain
`unexpected status` error. -/
theorem generic_error_not_below_400 :
    (clientDo false ("GET") "u" 302 ("302 Found") none ("moved")).1 =
        .error (.unexpectedStatus 302 ("moved")) ∧
      (clientDo false ("GET") "u" 302 ("302 Found") none ("moved")).1 ≠
        .error (.api { code := 302, message := trimSpace ("moved"),
                       status := statusText 302, details := [],
                       rawBody := "moved" }) := by
  constructor <;> decide

/-- C3 (amended): for every response with status ≥ 400 whose body fails
to parse as the envelope, or parses with an embedded code of zero, the
client returns a synthesized generic `APIError` whose code is the
transport status code, whose status name is the standard reason phrase
for that code, and whose message is the trimmed raw body; for non-2xx
statuses below 400 the client instead returns the plain
`unexpected status` error.  In particular a 500 response with body
`"internal failure"` yields code 500, message `"internal failure"` and
status `"Internal Server Error"`. -/
theorem generic_error_synthesized :
    (∀ (verbose : Bool) (method url : String) (statusCode : Int)
        (respStatus : String) (parsed : Option ErrEnvelope) (body : String),
      statusCode ≥ 400 →
      (∀ env, parsed = some env → env.code = 0) →
      (clientDo verbose method url statusCode respStatus parsed body).1 =
        .error (.api { code := statusCode, message := trimSpace body,
                       status := statusText statusCode, details := [],
                       rawBody := body })) ∧
    (∀ (verbose : Bool) (method url : String) (statusCode : Int)
        (respStatus : String) (body : String),
      (statusCode < 200 ∨ statusCode ≥ 300) → statusCode < 400 →
      (clientDo verbose method url statusCode respStatus none body).1 =
        .error (.unexpectedStatus statusCode body)) ∧
    ((clientDo false ("GET") "u" 500 ("500 Internal Server Error") none
        ("internal failure")).1 =
      .error (.api { code := 500, message := "internal failure",
                     status := "Internal Server Error", details := [],
                     rawBody := "internal failure" })) := by
  refine ⟨?_, ?_, ?_⟩
  · intro verbose method url statusCode respStatus parsed body h400 hzero
    have hrange : statusCode < 200 ∨ statusCode ≥ 300 := Or.inr (by omega)
    cases parsed with
    | none =>
      simp [clientDo, if_pos hrange, parseAPIErrorFromBody, genericAPIError,
        if_pos h400]
    | some env =>
      have : env.code = 0 := hzero env rfl
      simp [clientDo, if_pos hrange, parseAPIErrorFromBody, this,
        genericAPIError, if_pos h400]
  · intro verbose method url statusCode respStatus body hrange h400
    have : ¬ statusCode ≥ 400 := by omega
    simp [clientDo, if_pos hrange, parseAPIErrorFromBody, genericAPIError,
      if_neg this]
  · decide

/-- C3 witness: the amended generic branch applied at the concrete 500
response with an unparseable body. -/
theorem generic_error_synthesized_witness :
    (clientDo true ("GET") "u" 500 ("500 Internal Server Error") none
        (" internal failure \n")).1 =
      .error (.api { code := 500, message := "internal failure",
                     status := "Internal Server Error", details := [],
                     rawBody := " internal failure \n" }) := by
  have h := generic_error_synthesized.1 true ("GET") "u" 500
    ("500 Internal Server Error") none (" internal failure \n") (by norm_num)
    (by intro env henv; cases henv)
  rw [h]
  decide

/-- C9: the verbose flag does not interfere with results — the primary
success/error value of `do` is identical whether verbose mode is on or
off (diagnostic lines go only to the auxiliary log stream, which is
empty when verbose is off). -/
theorem verbose_noninterference
    (method url : String) (statusCode : Int) (respStatus : String)
    (parsed : Option ErrEnvelope) (body : String) :
    (clientDo true method url statusCode respStatus parsed body).1 =
        (clientDo false method url statusCode respStatus parsed body).1 ∧
      (clientDo false method url statusCode respStatus parsed body).2 = [] := by
  unfold clientDo
  by_cases h : statusCode < 200 ∨ statusCode ≥ 300
  · simp only [if_pos h]
    cases hp : parseAPIErrorFromBody statusCode parsed body <;> simp [hp]
  · simp [if_neg h]

/-! ## Output formatter (`output` package)

`Truncate` and `(*Table).Render` work on Go strings byte-wise; every
input the claims touch is ASCII, so Go strings are modelled as
`List Char` with length = character count. -/

/-- A Go string, modelled character-wise. -/
abbrev Str := List Char

/-- Go `strings.ReplaceAll(s, old, new)` for a single-character `old`
pattern (the only shape `Truncate` uses): every occurrence of the
character `old` becomes the string `new`. -/
def replaceAllChar (s : Str) (old : Char) (new : Str) : Str :=
  s.flatMap fun c => if c = old then new else [c]

/-- The `"..."` marker `Truncate` appends. -/
def ellipsisMarker : Str := ['.', '.', '.']

/-- `output.Truncate(s, maxLen)`: empty for `maxLen ≤ 0`; otherwise
newlines become spaces and carriage returns are removed, then the
string is cut to `maxLen` (for `maxLen ≤ 3`) or to `maxLen − 3` plus
the ellipsis marker when it exceeds `maxLen`. -/
def Truncate (s : Str) (maxLen : Int) : Str :=
  if maxLen ≤ 0 then []
  else
    let t := replaceAllChar (replaceAllChar s '\n' [' ']) '\x0d' []
    if (t.length : Int) ≤ maxLen then t
    else if maxLen ≤ 3 then t.take maxLen.toNat
    else t.take (maxLen.toNat - 3) ++ ellipsisMarker

/-- `output.maxColumnWidth`. -/
def maxColumnWidth : Nat := 50

/-- `output.columnPadding` spaces between columns. -/
def interColumnPad : Str := List.replicate 2 ' '

/-- `output.Table`. -/
structure Table where
  Headers : List Str
  Rows : List (List Str)

/-- The inner loop of `Render`'s width pass over the rows for column
`i`: fold `max` of the truncated cell lengths over every row that has a
column `i`, starting from `init` (the header length). -/
def cellWidthFold (i : Nat) (rows : List (List Str)) (init : Nat) : Nat :=
  rows.foldl
    (fun acc row =>
      if i < row.length then
        max acc (Truncate (row.getD i []) (maxColumnWidth : Int)).length
      else acc)
    init

/-- Column `i`'s computed display width: the fold over header length
and truncated cells, capped at `maxColumnWidth`. -/
def colWidth (t : Table) (i : Nat) : Nat :=
  min (cellWidthFold i t.Rows (t.Headers.getD i []).length) maxColumnWidth

/-- The header line of `Render`: upper-cased headers, padded to the
column width except for the last column, separated by the 2-space gap.
(Go would panic via a negative `strings.Repeat` count if a header were
longer than the cap; `Nat` subtraction truncates instead — no claim
touches that corner.) -/
def renderHeaderLine (t : Table) : Str :=
  (List.range t.Headers.length).foldl
    (fun b i =>
      let upper := (t.Headers.getD i []).map Char.toUpper
      let b := if 0 < i then b ++ interColumnPad else b
      let b := b ++ upper
      if i < t.Headers.length - 1 then
        b ++ List.replicate (colWidth t i - upper.length) ' '
      else b)
    []

/-- The dash separator line of `Render`: one run of dashes of exactly
each column's computed width, separated by the 2-space gap. -/
def renderSepLine (t : Table) : Str :=
  (List.range t.Headers.length).foldl
    (fun b i =>
      let b := if 0 < i then b ++ interColumnPad else b
      b ++ List.replicate (colWidth t i) '-')
    []

/-- One data row of `Render`: truncated cells (empty for a short row),
left-aligned and padded to the column width except for the last column,
separated by the 2-space gap. -/
def renderRowLine (t : Table) (row : List Str) : Str :=
  (List.range t.Headers.length).foldl
    (fun b i =>
      let val := if i < row.length then
          Truncate (row.getD i []) (maxColumnWidth : Int)
        else []
      let b := if 0 < i then b ++ interColumnPad else b
      let b := b ++ val
      if i < t.Headers.length - 1 then
        b ++ List.replicate (colWidth t i - val.length) ' '
      else b)
    []

/-- `(*Table).Render`: empty for a headerless table, otherwise the
header line, the separator line and every row, each newline
terminated. -/
def Render (t : Table) : Str :=
  if t.Headers = [] then []
  else
    renderHeaderLine t ++ ['\n'] ++ renderSepLine t ++ ['\n'] ++
      (t.Rows.map (fun row => renderRowLine t row ++ ['\n'])).flatten

/-! ### Truncate lemmas -/

/-- Every character of `replaceAllChar s old new` comes from `new` or
is a character of `s` different from `old`. -/
theorem mem_replaceAllChar {c : Char} {s : Str} {old : Char} {new : Str}
    (h : c ∈ replaceAllChar s old new) : c ∈ new ∨ (c ∈ s ∧ c ≠ old) := by
  unfold replaceAllChar at h
  rw [List.mem_flatMap] at h
  obtain ⟨a, ha, hc⟩ := h
  by_cases hao : a = old
  · subst hao
    simp at hc
    exact .inl hc
  · simp [hao] at hc
    subst hc
    exact .inr ⟨ha, hao⟩

/-- `replaceAllChar` is the identity when the pattern does not occur. -/
theorem replaceAllChar_of_not_mem {s : Str} {old : Char} {new : Str}
    (h : old ∉ s) : replaceAllChar s old new = s := by
  induction s with
  | nil => rfl
  | cons a s ih =>
    have ha : a ≠ old := fun hao => h (hao ▸ List.mem_cons_self a s)
    have hs : old ∉ s := fun hmem => h (List.mem_cons_of_mem a hmem)
    simp [replaceAllChar, List.flatMap_cons, ha] at *
    exact ih hs

/-- C10 (implicit postcondition): `Truncate s n` never exceeds
`max n 0` characters — empty for `n ≤ 0`, and at most `n` characters
otherwise, even when the ellipsis marker is appended. -/
theorem Truncate_length_le (s : Str) (n : Int) :
    (Truncate s n).length ≤ n.toNat ∧ (n ≤ 0 → Truncate s n = []) := by
  unfold Truncate
  by_cases h0 : n ≤ 0
  · simp [h0]
  · rw [if_neg h0]
    refine ⟨?_, fun h => absurd h h0⟩
    set t := replaceAllChar (replaceAllChar s '\n' [' ']) '\x0d' [] with ht
    by_cases h1 : (t.length : Int) ≤ n
    · rw [if_pos h1]
      omega
    · rw [if_neg h1]
      by_cases h2 : n ≤ 3
      · rw [if_pos h2]
        simp [List.length_take]
      · rw [if_neg h2]
        simp only [List.length_append, List.length_take, ellipsisMarker,
          List.length_cons, List.length_nil]
        omega

/-- C10 witness: the bound at `n = −1` (empty result) and at `n = 5`
on an 8-character string (truncated to 5). -/
theorem Truncate_length_le_witness :
    (Truncate ("abcdefgh").toList (-1)).length ≤ ((-1 : Int)).toNat ∧
      ((-1 : Int) ≤ 0 → Truncate ("abcdefgh").toList (-1) = []) ∧
      (Truncate ("abcdefgh").toList 5).length ≤ ((5 : Int)).toNat := by
  obtain ⟨ha, hb⟩ := Truncate_length_le ("abcdefgh").toList (-1)
  exact ⟨ha, hb, (Truncate_length_le ("abcdefgh").toList 5).1⟩

/-- C8 counterexample to the claim as stated: a carriage-return
character is not replaced with a space — it is removed.  `Truncate`
maps `"a\x0db"` to `"ab"`, not to the `"a b"` the claim predicts. -/
theorem carriageReturn_removed_not_spaced :
    Truncate ("a\x0db").toList 10 = ("ab").toList ∧
      ("ab").toList ≠ (("a b").toList : Str) := by
  constructor <;> decide

/-- C8 (amended): each newline character in a cell value is replaced
with a single space and each carriage-return character is removed (not
replaced with a space) before width computation, so no truncated cell
ever contains a line break; the cell `"line1\nline2"` renders in a
one-column table as the single line `"line1 line2"`. -/
theorem no_line_break_in_cells :
    (∀ (s : Str) (n : Int),
      '\n' ∉ Truncate s n ∧ '\x0d' ∉ Truncate s n) ∧
    Truncate ("line1\nline2").toList 50 = ("line1 line2").toList ∧
    Render ⟨[("CELL").toList], [[("line1\nline2").toList]]⟩ =
      ("CELL\n-----------\nline1 line2\n").toList := by
  refine ⟨?_, by decide, by decide⟩
  intro s n
  have key : ∀ c, c ∈ Truncate s n →
      c ∈ replaceAllChar (replaceAllChar s '\n' [' ']) '\x0d' [] ∨
        c ∈ ellipsisMarker := by
    intro c hc
    unfold Truncate at hc
    by_cases h0 : n ≤ 0
    · rw [if_pos h0] at hc
      cases hc
    · rw [if_neg h0] at hc
      set t := replaceAllChar (replaceAllChar s '\n' [' ']) '\x0d' [] with htdef
      by_cases h1 : (t.length : Int) ≤ n
      · rw [if_pos h1] at hc
        exact .inl hc
      · rw [if_neg h1] at hc
        by_cases h2 : n ≤ 3
        · rw [if_pos h2] at hc
          exact .inl (List.take_subset _ _ hc)
        · rw [if_neg h2] at hc
          rcases List.mem_append.mp hc with h | h
          · exact .inl (List.take_subset _ _ h)
          · exact .inr h
  have clean : ∀ c, c ∈ replaceAllChar (replaceAllChar s '\n' [' ']) '\x0d' [] →
      c ≠ '\n' ∧ c ≠ '\x0d' := by
    intro c hc
    rcases mem_replaceAllChar hc with h | ⟨hmem, hne⟩
    · cases h
    · rcases mem_replaceAllChar hmem with h | ⟨_, hne'⟩
      · simp at h
        subst h
        exact ⟨by decide, hne⟩
      · exact ⟨hne', hne⟩
  constructor
  · intro hmem
    rcases key '\n' hmem with h | h
    · exact (clean '\n' h).1 rfl
    · revert h; decide
  · intro hmem
    rcases key '\x0d' hmem with h | h
    · exact (clean '\x0d' h).2 rfl
    · revert h; decide

/-- C8 witness: the no-line-break property instantiated on a concrete
cell containing both a newline and a carriage return. -/
theorem no_line_break_in_cells_witness :
    '\n' ∉ Truncate ("a\nb\x0dc").toList 4 ∧
      '\x0d' ∉ Truncate ("a\nb\x0dc").toList 4 :=
  no_line_break_in_cells.1 ("a\nb\x0dc").toList 4

/-- The width fold never drops below its start value. -/
theorem le_cellWidthFold (i : Nat) (rows : List (List Str)) (init : Nat) :
    init ≤ cellWidthFold i rows init := by
  induction rows generalizing init with
  | nil => exact le_refl _
  | cons row rows ih =>
    unfold cellWidthFold
    rw [List.foldl_cons]
    refine le_trans ?_ (ih _)
    by_cases h : i < row.length
    · simp [h]
    · simp [h]

/-- Every truncated cell of column `i` is accounted for in the width
fold. -/
theorem truncCell_le_cellWidthFold (i : Nat) (row : List Str)
    (hlen : i < row.length) :
    ∀ (rows : List (List Str)) (init : Nat), row ∈ rows →
      (Truncate (row.getD i []) (maxColumnWidth : Int)).length ≤
        cellWidthFold i rows init := by
  intro rows
  induction rows with
  | nil => intro init h; cases h
  | cons r rows ih =>
    intro init hmem
    unfold cellWidthFold
    rw [List.foldl_cons]
    rcases List.mem_cons.mp hmem with h | h
    · subst h
      refine le_trans ?_ (le_cellWidthFold i rows _)
      simp [hlen]
    · exact ih _ h

/-- The over-long first cell of the C7 example table. -/
def longCell : Str :=
  ("a-very-long-value-that-exceeds-the-cap-by-a-wide-margin-xx").toList

/-- The C7 example table: headers `NAME`, `SIZE`, one row whose first
cell exceeds the column cap. -/
def tblC7 : Table :=
  ⟨[("NAME").toList, ("SIZE").toList], [[longCell, ("3").toList]]⟩

set_option maxRecDepth 8192 in
/-- C7: each column's display width is the maximum of the header length
and the truncated cell lengths, capped at 50 — formally: it never
exceeds the cap, dominates the header length up to the cap, and
dominates every truncated cell of the column; a cell whose value
exceeds 50 characters is cut to its first 47 characters plus the
3-character ellipsis marker, exactly 50 characters; and the example
table renders with the first cell as 50 characters ending in the
marker, a 50-dash separator under it, left-aligned rows and a 2-space
inter-column gap. -/
theorem table_render_layout :
    (∀ (t : Table) (i : Nat),
      colWidth t i ≤ maxColumnWidth ∧
        min (t.Headers.getD i []).length maxColumnWidth ≤ colWidth t i) ∧
    (∀ (t : Table) (row : List Str) (i : Nat), row ∈ t.Rows →
      i < row.length →
      (Truncate (row.getD i []) (maxColumnWidth : Int)).length ≤
        colWidth t i) ∧
    (∀ s : Str, '\n' ∉ s → '\x0d' ∉ s → maxColumnWidth < s.length →
      Truncate s (maxColumnWidth : Int) = s.take 47 ++ ellipsisMarker ∧
        (Truncate s (maxColumnWidth : Int)).length = 50) ∧
    Render tblC7 =
      ("NAME                                                SIZE\n--------------------------------------------------  ----\na-very-long-value-that-exceeds-the-cap-by-a-wid...  3\n").toList := by
  refine ⟨?_, ?_, ?_, by decide⟩
  · intro t i
    exact ⟨min_le_right _ _,
      min_le_min (le_cellWidthFold i t.Rows _) (le_refl _)⟩
  · intro t row i hmem hlen
    refine le_min (truncCell_le_cellWidthFold i row hlen t.Rows _ hmem) ?_
    have h := (Truncate_length_le (row.getD i []) (maxColumnWidth : Int)).1
    simpa using h
  · intro s hn hr h50
    have h50n : 50 < s.length := by simpa [maxColumnWidth] using h50
    have hclean :
        replaceAllChar (replaceAllChar s '\n' [' ']) '\x0d' [] = s := by
      rw [replaceAllChar_of_not_mem hn, replaceAllChar_of_not_mem hr]
    have hres : Truncate s (maxColumnWidth : Int) =
        s.take 47 ++ ellipsisMarker := by
      unfold Truncate
      rw [if_neg (by decide)]
      simp only [hclean]
      rw [if_neg (fun hcon =>
        absurd (by exact_mod_cast hcon : s.length ≤ maxColumnWidth)
          (not_le.mpr h50))]
      rw [if_neg (by decide)]
      rw [show ((maxColumnWidth : Int)).toNat - 3 = 47 from by decide]
    refine ⟨hres, ?_⟩
    rw [hres]
    simp only [List.length_append, List.length_take, ellipsisMarker,
      List.length_cons, List.length_nil]
    omega

/-- C7 witness: the layout facts instantiated on the example table —
the over-long cell truncates to exactly 50 characters ending in the
marker, and it fits its computed column width. -/
theorem table_render_layout_witness :
    (Truncate longCell (maxColumnWidth : Int) =
        longCell.take 47 ++ ellipsisMarker ∧
      (Truncate longCell (maxColumnWidth : Int)).length = 50) ∧
    (Truncate (([longCell, ("3").toList] : List Str).getD 0 [])
        (maxColumnWidth : Int)).length ≤ colWidth tblC7 0 := by
  constructor
  · exact table_render_layout.2.2.1 longCell (by decide) (by decide)
      (by decide)
  · exact table_render_layout.2.1 tblC7 [longCell, ("3").toList] 0
      (by simp [tblC7]) (by decide)

/-! ## Query parameters and URL building (`api` package)

`url.Values` is `map[string][]string`; since `Encode` serializes keys
in sorted order, the map is modelled as an association list with unique
keys, where `Set` replaces an existing key's values. -/

/-- `url.Values`: key → ordered values, unique keys. -/
abbrev UrlValues := List (String × List String)

/-- `url.Values.Set(key, value)`: replace the key's values with the
single `value`, inserting the key if absent. -/
def valuesSet (params : UrlValues) (key value : String) : UrlValues :=
  if params.any (fun p => p.1 = key) then
    params.map (fun p => if p.1 = key then (key, [value]) else p)
  else params ++ [(key, [value])]

/-- Go `strconv.FormatBool`. -/
def formatBool (b : Bool) : String :=
  if b then ("true") else ("false")

/-- `api.AddQueryParam`: set the parameter only if the value is
non-empty. -/
def AddQueryParam (params : UrlValues) (key value : String) : UrlValues :=
  if value ≠ "" then valuesSet params key value else params

/-- `api.AddQueryParamBool`: set the parameter only if the value is
true. -/
def AddQueryParamBool (params : UrlValues) (key : String) (value : Bool) :
    UrlValues :=
  if value then valuesSet params key (formatBool value) else params

/-- `api.AddQueryParamInt`: set the parameter only if the value is
greater than 0. -/
def AddQueryParamInt (params : UrlValues) (key : String) (value : Int) :
    UrlValues :=
  if value > 0 then valuesSet params key (toString value) else params

/-- An unreserved byte under Go's `url.QueryEscape` (ASCII model). -/
def queryUnreserved (c : Char) : Bool :=
  c.isAlphanum || c = '-' || c = '_' || c = '.' || c = '~'

/-- Upper-case hexadecimal digit. -/
def hexUpperDigit (n : Nat) : Char :=
  if n < 10 then Char.ofNat (48 + n) else Char.ofNat (55 + n)

/-- Go `url.QueryEscape` on one ASCII character: unreserved bytes pass
through, space becomes `+`, everything else is percent-encoded. -/
def queryEscapeChar (c : Char) : List Char :=
  if queryUnreserved c then [c]
  else if c = ' ' then ['+']
  else ['%', hexUpperDigit (c.toNat / 16), hexUpperDigit (c.toNat % 16)]

/-- Go `url.QueryEscape` (ASCII model). -/
def queryEscape (s : String) : String :=
  ⟨s.data.flatMap queryEscapeChar⟩

/-- Insert a string into a sorted list (helper for the sorted-key
iteration of `url.Values.Encode`). -/
def insertSorted (x : String) : List String → List String
  | [] => [x]
  | y :: ys => if x ≤ y then x :: y :: ys else y :: insertSorted x ys

/-- Sort a list of keys (insertion sort; `Encode` visits keys in sorted
order). -/
def sortStrings (l : List String) : List String :=
  l.foldr insertSorted []

/-- `url.Values.Get`-like lookup of all values of a key. -/
def valuesGet (params : UrlValues) (key : String) : List String :=
  match params.find? (fun p => p.1 = key) with
  | some p => p.2
  | none => []

/-- `url.Values.Encode`: keys in sorted order, each value as
`escape(k)=escape(v)`, joined with `&`. -/
def valuesEncode (params : UrlValues) : String :=
  String.intercalate ("&")
    ((sortStrings (params.map Prod.fst)).flatMap (fun k =>
      (valuesGet params k).map (fun v => queryEscape k ++ "=" ++ queryEscape v)))

/-- Go `strings.TrimLeft(path, "/")`. -/
def trimLeftSlash (s : String) : String :=
  ⟨s.data.dropWhile (fun c => c = '/')⟩

/-- `api.BaseURL`. -/
def BaseURL : String := "https://chat.googleapis.com/v1"

/-- `(*Client).buildURL`: base URL, `/`, the path with leading slashes
trimmed, and — only when at least one parameter is present — `?` and
the encoded query string. -/
def buildURL (baseURL path : String) (params : UrlValues) : String :=
  let u := baseURL ++ "/" ++ trimLeftSlash path
  if params.length > 0 then u ++ "?" ++ valuesEncode params else u

/-- C6: empty query-parameter values are omitted entirely — an empty
string leaves the parameters untouched (so no `filter` key is ever
serialized, not even as `filter=`), a page size of zero or less adds no
key, a request with no parameters has no `?` in its URL, and a request
built with an empty filter next to a page size serializes only the page
size. -/
theorem empty_query_params_omitted :
    (∀ (params : UrlValues) (key : String),
      AddQueryParam params key ("") = params) ∧
    (∀ (params : UrlValues) (key : String) (value : Int), value ≤ 0 →
      AddQueryParamInt params key value = params) ∧
    (∀ (baseURL path : String),
      buildURL baseURL path [] = baseURL ++ "/" ++ trimLeftSlash path) ∧
    (∀ (baseURL path : String), '?' ∉ baseURL.data →
      '?' ∉ (trimLeftSlash path).data →
      '?' ∉ (buildURL baseURL path []).data) ∧
    (buildURL BaseURL ("spaces")
        (AddQueryParam (AddQueryParamInt [] "pageSize" 10) "filter" "") =
      "https://chat.googleapis.com/v1/spaces?pageSize=10") := by
  have hnil : ∀ (baseURL path : String),
      buildURL baseURL path [] = baseURL ++ "/" ++ trimLeftSlash path := by
    intro baseURL path
    simp [buildURL]
  refine ⟨?_, ?_, hnil, ?_, by decide⟩
  · intro params key
    simp [AddQueryParam]
  · intro params key value hv
    simp [AddQueryParamInt, not_lt.mpr hv]
  · intro baseURL path hb hp h
    rw [hnil] at h
    have h' : '?' ∈ baseURL.data ++ ('/' :: (trimLeftSlash path).data) := by
      simpa [String.data_append, List.singleton_append] using h
    rcases List.mem_append.mp h' with h1 | h1
    · exact hb h1
    · rcases List.mem_cons.mp h1 with h2 | h2
      · exact absurd h2 (by decide)
      · exact hp h2

/-- C6 witness: the omission rules applied at concrete inputs — an
empty filter value and a non-positive page size leave a one-entry
parameter map untouched, and a parameterless URL over the real base
endpoint has no `?`. -/
theorem empty_query_params_omitted_witness :
    AddQueryParam [("pageSize", ["10"])] "filter" "" =
        [("pageSize", ["10"])] ∧
      AddQueryParamInt [("pageSize", ["10"])] "pageSize" 0 =
        [("pageSize", ["10"])] ∧
      '?' ∉ (buildURL BaseURL ("spaces") []).data := by
  refine ⟨empty_query_params_omitted.1 _ _,
    empty_query_params_omitted.2.1 _ _ 0 (by decide), ?_⟩
  exact empty_query_params_omitted.2.2.2.1 BaseURL ("spaces") (by decide)
    (by decide)

end Gogchat
